import Mathlib

/-
  Verification of the GLD (gradientless descent) core of
  src/training/gld_trainer.py (class GLDTrainer).

  The embedding models the GLD-specific methods:
    __init__        (lines 76-92)   -> gld_init, linspace, search_space
    gld_step        (lines 560-585) -> gld_step, pyMinBy
    gld_update      (lines 587-605) -> gld_update
    do_trial        (lines 607-616) -> do_trial
    perturb_parameters (618-624)    -> perturb_parameters, perturbData

  Modelling conventions:
  - Parameter tensors are flat lists of rationals (exact arithmetic; the
    spec states its round-trip properties "exact under real-number
    arithmetic").
  - The torch pseudorandom stream after torch.manual_seed(s) is an
    arbitrary function g : seed -> draw index -> value; a tensor of n
    elements consumes n consecutive draws.  All theorems quantify over g,
    so they hold for the actual generator.
  - np.random.randint(1000000000) is an arbitrary stream npRand of the
    number of calls made so far; the call counter lives in the state.
  - Loss values returned by gld_forward are IEEE-style values: finite
    rationals, plus or minus infinity, or NaN, with the comparison semantics of
    Python floats (every comparison involving NaN is false).  gld_forward
    itself runs under torch.inference_mode with model.eval() and mutates
    nothing, so it is modelled as a pure function of the parameters.
  - The real-valued search-space arithmetic of __init__ (math.log,
    np.linspace) and of the scale formula 2 ** (-radius) * max_radius
    (line 576) is modelled over the real numbers.  Inside the stateful
    step machinery the map radius -> 2 ** (-radius) is kept as an
    abstract function pow2neg : Q -> Q, because selection, restoration
    and commit behaviour hold for every value it returns.
-/

namespace GLDTrainer

/-- IEEE-style float value as compared by Python: NaN, -inf, finite, +inf. -/
inductive FVal where
  | nan : FVal
  | ninf : FVal
  | fin : ℚ → FVal
  | pinf : FVal
deriving DecidableEq, Repr

/-- Python `<` on float values: any comparison involving NaN is false;
otherwise -inf < finite < +inf with the numeric order on finite values. -/
def flt : FVal → FVal → Bool
  | FVal.nan, _ => false
  | _, FVal.nan => false
  | FVal.ninf, FVal.ninf => false
  | FVal.ninf, _ => true
  | _, FVal.ninf => false
  | FVal.fin a, FVal.fin b => decide (a < b)
  | FVal.fin _, FVal.pinf => true
  | FVal.pinf, _ => false

/-- Whether a float value is finite. -/
def isFin : FVal → Bool
  | FVal.fin _ => true
  | _ => false

/-- One entry of model.named_parameters(): name, flat tensor data, and the
requires_grad flag (the filter used to build named_parameters_to_optim at
lines 219-222). -/
structure NamedParam where
  name : String
  data : List ℚ
  requiresGrad : Bool
deriving DecidableEq, Repr

/-- One entry of self.losses in gld_step: (loss, seed, scale), where
scale = none marks the baseline (unperturbed) evaluation. -/
structure Trial where
  loss : FVal
  seed : ℕ
  scale : Option ℚ
deriving DecidableEq, Repr

/-- The mutable trainer attributes the GLD methods read and write.
gld_seed and losses are Python attributes first assigned inside gld_step /
do_trial, hence optional resp. initially empty; lr_steps counts
lr_scheduler.step() calls. -/
structure TrainerState where
  max_radius : ℚ
  search_space : List ℚ
  named_parameters : List NamedParam
  gld_seed : Option ℕ
  best_scale : Option ℚ
  lr_steps : ℕ
  npCounter : ℕ
  losses : List Trial
deriving DecidableEq, Repr

/-- Python exceptions raised by the embedded code. -/
inductive PyErr where
  | attributeError : PyErr
  | typeError : PyErr
  | valueError : PyErr
  | zeroDivisionError : PyErr
deriving DecidableEq, Repr

/-- The torch pseudorandom stream: seed and scalar draw index to value. -/
abbrev PRNG := ℕ → ℕ → ℚ

/-- torch.normal(mean=0, std=1, size=n) after manual_seed(seed), when pos
scalar draws have already been consumed since seeding. -/
def drawNormal (g : PRNG) (seed pos n : ℕ) : List ℚ :=
  (List.range n).map (fun i => g seed (pos + i))

/-- The parameter sweep of perturb_parameters (lines 622-624): every
parameter with requires_grad (the named_parameters_to_optim list, in
order) receives p.data + scale * v_k, where v_k is the next normal draw
of its size; pos is the number of draws consumed so far. -/
def perturbData (g : PRNG) (seed : ℕ) (scale : ℚ) : ℕ → List NamedParam → List NamedParam
  | _, [] => []
  | pos, p :: rest =>
    if p.requiresGrad then
      let dr := drawNormal g seed pos p.data.length
      { p with data := List.zipWith (fun x v => x + scale * v) p.data dr }
        :: perturbData g seed scale (pos + p.data.length) rest
    else
      p :: perturbData g seed scale pos rest

/-- GLDTrainer.perturb_parameters (lines 618-624): seeds the stream with
the seed argument if given, else with self.gld_seed (AttributeError if
that attribute was never assigned), then perturbs in place every
parameter of named_parameters_to_optim. -/
def perturb_parameters (g : PRNG) (st : TrainerState) (scale : ℚ) (seed : Option ℕ) :
    Except PyErr TrainerState :=
  match seed, st.gld_seed with
  | some s, _ =>
      Except.ok { st with named_parameters := perturbData g s scale 0 st.named_parameters }
  | none, some s =>
      Except.ok { st with named_parameters := perturbData g s scale 0 st.named_parameters }
  | none, none => Except.error PyErr.attributeError

/-- GLDTrainer.do_trial (lines 607-616): draw a fresh seed into
self.gld_seed, perturb with +scale, evaluate the loss, perturb with
(-1 * scale) (both perturbations use self.gld_seed, just assigned, so the
None-seed AttributeError branch of perturb_parameters is unreachable and
the perturbation core is inlined), and return (loss, seed, scale). -/
def do_trial (g : PRNG) (npRand : ℕ → ℕ) (lossFn : List NamedParam → FVal)
    (st : TrainerState) (scale : ℚ) : TrainerState × Trial :=
  let seed := npRand st.npCounter
  let st1 := { st with gld_seed := some seed, npCounter := st.npCounter + 1 }
  let st2 := { st1 with named_parameters := perturbData g seed scale 0 st1.named_parameters }
  let loss := lossFn st2.named_parameters
  let st3 := { st2 with
    named_parameters := perturbData g seed ((-1) * scale) 0 st2.named_parameters }
  (st3, ⟨loss, seed, some scale⟩)

/-- The for-loop of gld_step (lines 575-579): for each radius of the
search space, in order, compute the trial scale 2 ** (-radius) *
max_radius (the exponential kept abstract as pow2neg) and run do_trial,
collecting the returned triples. -/
def gld_trials (g : PRNG) (npRand : ℕ → ℕ) (lossFn : List NamedParam → FVal)
    (pow2neg : ℚ → ℚ) : List ℚ → TrainerState → TrainerState × List Trial
  | [], st => (st, [])
  | radius :: rest, st =>
      let scale := pow2neg radius * st.max_radius
      let p := do_trial g npRand lossFn st scale
      let q := gld_trials g npRand lossFn pow2neg rest p.1
      (q.1, p.2 :: q.2)

/-- Python min(losses, key=lambda x: x[0]) (line 582): scan the list
keeping the current minimum, replacing it only on strict `<` of the key,
so the first-seen minimum wins ties. -/
def pyMinBy : Trial → List Trial → Trial
  | cur, [] => cur
  | cur, x :: rest => pyMinBy (if flt x.loss cur.loss then x else cur) rest

/-- GLDTrainer.gld_step (lines 560-585): reset self.losses, draw a fresh
self.gld_seed, evaluate the unperturbed baseline, run one trial per
search-space radius, then select the lowest loss and store its seed and
scale into self.gld_seed / self.best_scale; returns the winning loss. -/
def gld_step (g : PRNG) (npRand : ℕ → ℕ) (lossFn : List NamedParam → FVal)
    (pow2neg : ℚ → ℚ) (st : TrainerState) : TrainerState × FVal :=
  let seed0 := npRand st.npCounter
  let st0 := { st with losses := [], gld_seed := some seed0, npCounter := st.npCounter + 1 }
  let base : Trial := ⟨lossFn st0.named_parameters, seed0, none⟩
  let r := gld_trials g npRand lossFn pow2neg st0.search_space st0
  let lowest := pyMinBy base r.2
  let stFin := { r.1 with losses := base :: r.2, gld_seed := some lowest.seed, best_scale := lowest.scale }
  (stFin, lowest.loss)

/-- GLDTrainer.gld_update (lines 587-605): torch.manual_seed(self.gld_seed)
(AttributeError if gld_seed was never assigned), then a loop over ALL of
self.model.named_parameters() whose body, guarded by
`if self.best_scale is not None`, calls
torch.normal(mean=0, std=1, size=..., device=..., type=p.data.dtype).
`type` is not a keyword of torch.normal (perturb_parameters at line 623
correctly writes dtype=), so the first loop iteration with a non-None
best_scale raises TypeError before any parameter is mutated.  With
best_scale None (baseline won) the guarded body is skipped for every
parameter.  Afterwards self.lr_scheduler.step() runs. -/
def gld_update (st : TrainerState) : Except PyErr TrainerState :=
  match st.gld_seed with
  | none => Except.error PyErr.attributeError
  | some _ =>
    match st.best_scale with
    | none => Except.ok { st with lr_steps := st.lr_steps + 1 }
    | some _ =>
      match st.named_parameters with
      | [] => Except.ok { st with lr_steps := st.lr_steps + 1 }
      | _ :: _ => Except.error PyErr.typeError

/-- np.linspace(a, b, num): num evenly spaced samples over the closed
interval from a to b (endpoint included); one sample gives just the
start, zero samples the empty list. -/
noncomputable def linspace (a b : ℝ) (num : ℕ) : List ℝ :=
  if num = 1 then [a]
  else (List.range num).map (fun i => a + (b - a) * i / (num - 1))

/-- Line 89: self.log_radius = math.log(max_radius / min_radius). -/
noncomputable def log_radius (min_radius max_radius : ℝ) : ℝ :=
  Real.log (max_radius / min_radius)

/-- Line 90: self.search_space = np.linspace(0, self.log_radius,
num=num_ball_samples).tolist(). -/
noncomputable def search_space (min_radius max_radius : ℝ) (num_ball_samples : ℕ) : List ℝ :=
  linspace 0 (log_radius min_radius max_radius) num_ball_samples

/-- Line 576: trial = (2 ** (-1 * radius)) * self.max_radius, applied to
every radius of the search space in order. -/
noncomputable def trial_scales (min_radius max_radius : ℝ) (num_ball_samples : ℕ) : List ℝ :=
  (search_space min_radius max_radius num_ball_samples).map
    (fun radius => (2 : ℝ) ^ ((-1 : ℝ) * radius) * max_radius)

/-- The GLD configuration fields set by __init__. -/
structure GLDConfig where
  min_radius : ℝ
  max_radius : ℝ
  best_scale : Option ℝ
  log_radius : ℝ
  search_space : List ℝ

/-- GLDTrainer.__init__ (lines 76-92), restricted to the GLD fields.  It
performs no configuration validation of its own; the only exceptions are
those raised by the library calls it makes, in evaluation order:
max_radius / min_radius with min_radius equal to 0.0 raises
ZeroDivisionError, math.log of a non-positive ratio raises ValueError
(math domain error), and np.linspace with a negative num raises
ValueError.  num_ball_samples is a Python int and may be negative. -/
noncomputable def gld_init (min_radius max_radius : ℝ) (num_ball_samples : ℤ) :
    Except PyErr GLDConfig :=
  if min_radius = 0 then Except.error PyErr.zeroDivisionError
  else if max_radius / min_radius ≤ 0 then Except.error PyErr.valueError
  else if num_ball_samples < 0 then Except.error PyErr.valueError
  else Except.ok ⟨min_radius, max_radius, none, log_radius min_radius max_radius,
    search_space min_radius max_radius num_ball_samples.toNat⟩

/-- Example pseudorandom stream for concrete runs: every draw is 1. -/
def exG : PRNG := fun _ _ => 1

/-- Example np.random stream for concrete runs: the n-th call returns n. -/
def exNpr : ℕ → ℕ := fun n => n

/-- Example stand-in for the map radius to 2 ** (-radius) in concrete
runs (the selection and restoration facts hold for every such map). -/
def exId : ℚ → ℚ := fun r => r

/-- Rational value of the example loss function below. -/
def exLossValC2 : List NamedParam → ℚ := fun ps =>
  match ps with
  | p :: _ =>
    match p.data with
    | x :: _ => if x = 1 then 12/10 else if x = 2 then 5/10 else if x = 3 then 5/10 else 9/10
    | _ => 0
  | _ => 0

/-- Example loss function realizing the winner-selection example of the
spec: with one weight starting at 0 and unit draws, the baseline
evaluates to 0.9 and the three trials (scales 1, 2, 3) to 1.2, 0.5 and
0.5.  Always finite. -/
def exLossC2 : List NamedParam → FVal := fun ps => FVal.fin (exLossValC2 ps)

/-- Example starting state for the winner-selection run: three radii,
one trainable weight. -/
def exStC2 : TrainerState := ⟨1, [1, 2, 3], [⟨"w", [0], true⟩], none, none, 0, 0, []⟩

/-- Example loss function that is plus infinity on the unperturbed
weight and minus infinity on every perturbed weight. -/
def exLossInf : List NamedParam → FVal := fun ps =>
  match ps with
  | p :: _ =>
    match p.data with
    | x :: _ => if x = 0 then FVal.pinf else FVal.ninf
    | _ => FVal.nan
  | _ => FVal.nan

/-- Example starting state for the non-finite-loss run: one radius, one
trainable weight. -/
def exStC9 : TrainerState := ⟨1, [1], [⟨"w", [0], true⟩], none, none, 0, 0, []⟩

/- ------------------------------------------------------------------ -/
/- Helper lemmas.                                                      -/
/- ------------------------------------------------------------------ -/

theorem flt_irrefl (a : FVal) : flt a a = false := by
  cases a <;> simp [flt]

theorem flt_trans {a b c : FVal} (h1 : flt a b = true) (h2 : flt b c = true) :
    flt a c = true := by
  cases a <;> cases b <;> cases c <;> simp_all [flt]
  exact lt_trans h1 h2

theorem flt_asymm {a b : FVal} (h : flt a b = true) : flt b a = false := by
  cases a <;> cases b <;> simp_all [flt]
  exact le_of_lt h

theorem flt_of_flt_of_not_flt_fin {w c x : FVal} (h1 : flt w c = true)
    (h2 : flt x c = false) (hx : isFin x = true) : flt w x = true := by
  cases w <;> cases c <;> cases x <;> simp_all [flt, isFin]
  exact lt_of_lt_of_le h1 h2

theorem pyMinBy_cons (cur x : Trial) (rest : List Trial) :
    pyMinBy cur (x :: rest) = pyMinBy (if flt x.loss cur.loss then x else cur) rest := rfl

theorem pyMinBy_eq_or (xs : List Trial) : ∀ cur : Trial,
    pyMinBy cur xs = cur ∨
      (pyMinBy cur xs ∈ xs ∧ flt (pyMinBy cur xs).loss cur.loss = true) := by
  induction xs with
  | nil => intro cur; exact Or.inl rfl
  | cons x rest ih =>
    intro cur
    rw [pyMinBy_cons]
    by_cases h : flt x.loss cur.loss = true
    · rw [if_pos h]
      rcases ih x with h1 | ⟨h1, h2⟩
      · exact Or.inr ⟨by rw [h1]; exact List.mem_cons_self x rest, by rw [h1]; exact h⟩
      · exact Or.inr ⟨List.mem_cons_of_mem x h1, flt_trans h2 h⟩
    · rw [if_neg h]
      rcases ih cur with h1 | ⟨h1, h2⟩
      · exact Or.inl h1
      · exact Or.inr ⟨List.mem_cons_of_mem x h1, h2⟩

theorem pyMinBy_mem (cur : Trial) (xs : List Trial) : pyMinBy cur xs ∈ cur :: xs := by
  rcases pyMinBy_eq_or xs cur with h | ⟨h, _⟩
  · rw [h]; exact List.mem_cons_self cur xs
  · exact List.mem_cons_of_mem cur h

theorem pyMinBy_not_below (xs : List Trial) : ∀ cur : Trial,
    ∀ t ∈ cur :: xs, flt t.loss (pyMinBy cur xs).loss = false := by
  induction xs with
  | nil =>
    intro cur t ht
    obtain h1 | h1 := List.mem_cons.mp ht
    · rw [h1]; exact flt_irrefl _
    · exact absurd h1 (List.not_mem_nil t)
  | cons x rest ih =>
    intro cur t ht
    rw [pyMinBy_cons]
    by_cases h : flt x.loss cur.loss = true
    · rw [if_pos h]
      obtain h1 | h1 := List.mem_cons.mp ht
      · rw [h1]
        rcases pyMinBy_eq_or rest x with h1 | ⟨_, h2⟩
        · rw [h1]; exact flt_asymm h
        · exact flt_asymm (flt_trans h2 h)
      · exact ih x t h1
    · rw [if_neg h]
      have h' : flt x.loss cur.loss = false := by
        cases hb : flt x.loss cur.loss
        · rfl
        · exact absurd hb h
      obtain h1 | h1 := List.mem_cons.mp ht
      · rw [h1]
        rcases pyMinBy_eq_or rest cur with h2 | ⟨_, h3⟩
        · rw [h2]; exact flt_irrefl _
        · exact flt_asymm h3
      · obtain h2 | h2 := List.mem_cons.mp h1
        · rw [h2]
          rcases pyMinBy_eq_or rest cur with h3 | ⟨_, h4⟩
          · rw [h3]; exact h'
          · cases hb : flt x.loss (pyMinBy cur rest).loss
            · rfl
            · have h5 := flt_trans hb h4
              rw [h5] at h'
              exact absurd h' (by simp)
        · exact ih cur t (List.mem_cons_of_mem cur h2)

theorem pyMinBy_first (xs : List Trial) : ∀ cur : Trial,
    (∀ t ∈ cur :: xs, isFin t.loss = true) →
    ∃ l1 l2, cur :: xs = l1 ++ pyMinBy cur xs :: l2 ∧
      ∀ t ∈ l1, flt (pyMinBy cur xs).loss t.loss = true := by
  induction xs with
  | nil =>
    intro cur _
    exact ⟨[], [], rfl, by simp⟩
  | cons x rest ih =>
    intro cur hfin
    rw [pyMinBy_cons]
    by_cases h : flt x.loss cur.loss = true
    · rw [if_pos h]
      obtain ⟨l1, l2, heq, hlt⟩ := ih x (fun t ht =>
        hfin t (List.mem_cons_of_mem cur ht))
      refine ⟨cur :: l1, l2, by rw [List.cons_append, ← heq], ?_⟩
      intro t ht
      obtain h1 | h1 := List.mem_cons.mp ht
      · rw [h1]
        rcases pyMinBy_eq_or rest x with h2 | ⟨_, h2⟩
        · rw [h2]; exact h
        · exact flt_trans h2 h
      · exact hlt t h1
    · rw [if_neg h]
      have h' : flt x.loss cur.loss = false := by
        cases hb : flt x.loss cur.loss
        · rfl
        · exact absurd hb h
      obtain ⟨l1, l2, heq, hlt⟩ := ih cur (fun t ht => by
        obtain h1 | h1 := List.mem_cons.mp ht
        · rw [h1]; exact hfin cur (List.mem_cons_self cur _)
        · exact hfin t (List.mem_cons_of_mem cur (List.mem_cons_of_mem x h1)))
      cases l1 with
      | nil =>
        simp only [List.nil_append] at heq
        have hcur : pyMinBy cur rest = cur := by
          injection heq with h1 _
          exact h1.symm
        refine ⟨[], x :: rest, ?_, by simp⟩
        rw [hcur, List.nil_append]
      | cons a l1' =>
        simp only [List.cons_append] at heq
        injection heq with h1 h2
        refine ⟨cur :: x :: l1', l2, by rw [List.cons_append, List.cons_append, ← h2], ?_⟩
        intro t ht
        have hcurlt : flt (pyMinBy cur rest).loss cur.loss = true := by
          have h3 := hlt a (List.mem_cons_self a l1')
          rw [← h1] at h3
          exact h3
        obtain h1a | h1a := List.mem_cons.mp ht
        · rw [h1a]; exact hcurlt
        · obtain h1b | h1b := List.mem_cons.mp h1a
          · rw [h1b]
            exact flt_of_flt_of_not_flt_fin hcurlt h'
              (hfin x (List.mem_cons_of_mem cur (List.mem_cons_self x rest)))
          · exact hlt t (List.mem_cons_of_mem a h1b)

theorem length_drawNormal (g : PRNG) (seed pos n : ℕ) :
    (drawNormal g seed pos n).length = n := by
  simp [drawNormal]

theorem zipWith_perturb_cancel (k : ℚ) : ∀ xs vs : List ℚ, xs.length = vs.length →
    List.zipWith (fun x v => x + -k * v)
      (List.zipWith (fun x v => x + k * v) xs vs) vs = xs := by
  intro xs
  induction xs with
  | nil => intro vs _; simp
  | cons x xs ih =>
    intro vs hlen
    cases vs with
    | nil => simp at hlen
    | cons v vs =>
      simp only [List.zipWith]
      have hx : x + k * v + -k * v = x := by ring
      rw [hx, ih vs (by simpa using hlen)]

theorem perturbData_roundtrip (g : PRNG) (s : ℕ) (k : ℚ) :
    ∀ (ps : List NamedParam) (pos : ℕ),
      perturbData g s (-k) pos (perturbData g s k pos ps) = ps := by
  intro ps
  induction ps with
  | nil => intro pos; rfl
  | cons p rest ih =>
    intro pos
    by_cases hg : p.requiresGrad = true
    · have hlen : (List.zipWith (fun x v => x + k * v) p.data
          (drawNormal g s pos p.data.length)).length = p.data.length := by
        rw [List.length_zipWith, length_drawNormal, Nat.min_self]
      simp only [perturbData, hg, if_true]
      rw [hlen, zipWith_perturb_cancel k p.data _ (length_drawNormal g s pos _).symm,
        ih (pos + p.data.length), ← hg]
    · simp only [perturbData, hg, if_false]
      rw [ih pos]
      simp

theorem do_trial_state (g : PRNG) (npr : ℕ → ℕ) (lf : List NamedParam → FVal)
    (st : TrainerState) (scale : ℚ) :
    (do_trial g npr lf st scale).1 =
      { st with gld_seed := some (npr st.npCounter), npCounter := st.npCounter + 1 } := by
  cases st
  simp [do_trial, neg_one_mul, perturbData_roundtrip]

theorem do_trial_trial (g : PRNG) (npr : ℕ → ℕ) (lf : List NamedParam → FVal)
    (st : TrainerState) (scale : ℚ) :
    ((do_trial g npr lf st scale).2.scale = some scale ∧
      (do_trial g npr lf st scale).2.seed = npr st.npCounter) := by
  constructor <;> rfl

theorem gld_trials_state (g : PRNG) (npr : ℕ → ℕ) (lf : List NamedParam → FVal)
    (p2 : ℚ → ℚ) : ∀ (l : List ℚ) (st : TrainerState),
    ((gld_trials g npr lf p2 l st).1.named_parameters = st.named_parameters ∧
      (gld_trials g npr lf p2 l st).1.max_radius = st.max_radius ∧
      (gld_trials g npr lf p2 l st).1.lr_steps = st.lr_steps) ∧
    (gld_trials g npr lf p2 l st).2.map Trial.scale =
      l.map (fun r => some (p2 r * st.max_radius)) := by
  intro l
  induction l with
  | nil => intro st; exact ⟨⟨rfl, rfl, rfl⟩, rfl⟩
  | cons r rest ih =>
    intro st
    simp only [gld_trials]
    rw [do_trial_state]
    obtain ⟨⟨ihp, ihm, ihl⟩, ihs⟩ :=
      ih { st with gld_seed := some (npr st.npCounter), npCounter := st.npCounter + 1 }
    refine ⟨⟨by rw [ihp], by rw [ihm], by rw [ihl]⟩, ?_⟩
    simp only [List.map_cons]
    rw [ihs]
    rfl

theorem flt_nan_right (a : FVal) : flt a FVal.nan = false := by
  cases a <;> rfl

theorem gld_trials_losses (g : PRNG) (npr : ℕ → ℕ) (lf : List NamedParam → FVal)
    (p2 : ℚ → ℚ) : ∀ (l : List ℚ) (st : TrainerState),
    ∀ t ∈ (gld_trials g npr lf p2 l st).2, ∃ ps, t.loss = lf ps := by
  intro l
  induction l with
  | nil => intro st t ht; exact absurd ht (List.not_mem_nil t)
  | cons r rest ih =>
    intro st t ht
    simp only [gld_trials] at ht
    rcases List.mem_cons.mp ht with h1 | h1
    · refine ⟨perturbData g (npr st.npCounter) (p2 r * st.max_radius) 0 st.named_parameters, ?_⟩
      rw [h1]
      rfl
    · exact ih _ t h1

theorem gld_update_no_seed (st : TrainerState) (h : st.gld_seed = none) :
    gld_update st = Except.error PyErr.attributeError := by
  unfold gld_update
  rw [h]

theorem gld_update_none_scale (st : TrainerState) (s : ℕ) (hs : st.gld_seed = some s)
    (hb : st.best_scale = none) :
    gld_update st = Except.ok { st with lr_steps := st.lr_steps + 1 } := by
  unfold gld_update
  rw [hs, hb]

theorem gld_update_some_scale (st : TrainerState) (s : ℕ) (k : ℚ) (p : NamedParam)
    (ps : List NamedParam) (hs : st.gld_seed = some s) (hb : st.best_scale = some k)
    (hp : st.named_parameters = p :: ps) :
    gld_update st = Except.error PyErr.typeError := by
  unfold gld_update
  rw [hs, hb, hp]

theorem gld_step_spec (g : PRNG) (npr : ℕ → ℕ) (lf : List NamedParam → FVal)
    (p2 : ℚ → ℚ) (st : TrainerState) :
    ∃ trials w,
      w = pyMinBy ⟨lf st.named_parameters, npr st.npCounter, none⟩ trials ∧
      (gld_step g npr lf p2 st).1.losses =
        ⟨lf st.named_parameters, npr st.npCounter, none⟩ :: trials ∧
      trials.map Trial.scale = st.search_space.map (fun r => some (p2 r * st.max_radius)) ∧
      (gld_step g npr lf p2 st).1.named_parameters = st.named_parameters ∧
      (gld_step g npr lf p2 st).1.lr_steps = st.lr_steps ∧
      (gld_step g npr lf p2 st).2 = w.loss ∧
      (gld_step g npr lf p2 st).1.best_scale = w.scale ∧
      (gld_step g npr lf p2 st).1.gld_seed = some w.seed ∧
      (∀ t ∈ trials, ∃ ps, t.loss = lf ps) := by
  have key := gld_trials_state g npr lf p2 st.search_space
    { st with losses := [], gld_seed := some (npr st.npCounter), npCounter := st.npCounter + 1 }
  obtain ⟨⟨hp, hm, hl⟩, hs⟩ := key
  have key2 := gld_trials_losses g npr lf p2 st.search_space
    { st with losses := [], gld_seed := some (npr st.npCounter), npCounter := st.npCounter + 1 }
  exact ⟨_, _, rfl, rfl, hs, hp, hl, rfl, rfl, rfl, key2⟩

theorem pyMinBy_stays (xs : List Trial) : ∀ cur : Trial,
    (∀ t ∈ xs, flt t.loss cur.loss = false) → pyMinBy cur xs = cur := by
  induction xs with
  | nil => intro cur _; rfl
  | cons x rest ih =>
    intro cur h
    rw [pyMinBy_cons, if_neg (by rw [h x (List.mem_cons_self x rest)]; exact Bool.false_ne_true),
      ih cur (fun t ht => h t (List.mem_cons_of_mem x ht))]

theorem log_eight_eq : Real.log 8 = 3 * Real.log 2 := by
  rw [show (8:ℝ) = 2 ^ (3:ℕ) by norm_num, Real.log_pow]
  push_cast
  ring

theorem search_space_one_eight_four :
    search_space 1 8 4 = [0, Real.log 2, 2 * Real.log 2, Real.log 8] := by
  unfold search_space log_radius linspace
  rw [if_neg (by norm_num)]
  have h4 : List.range 4 = [0, 1, 2, 3] := rfl
  rw [h4]
  simp only [List.map]
  rw [div_one, log_eight_eq]
  norm_num
  ring

theorem trial_scales_one_eight_four : trial_scales 1 8 4 =
    [8, (2:ℝ) ^ (-Real.log 2) * 8, ((2:ℝ) ^ (-Real.log 2))^2 * 8,
      ((2:ℝ) ^ (-Real.log 2))^3 * 8] := by
  unfold trial_scales
  rw [search_space_one_eight_four]
  simp only [List.map]
  have hq2 : (2:ℝ) ^ ((-1:ℝ) * (2 * Real.log 2)) = ((2:ℝ) ^ (-Real.log 2))^(2:ℕ) := by
    rw [← Real.rpow_natCast ((2:ℝ) ^ (-Real.log 2)) 2, ← Real.rpow_mul (by norm_num)]
    congr 1
    push_cast
    ring
  have hq3 : (2:ℝ) ^ ((-1:ℝ) * Real.log 8) = ((2:ℝ) ^ (-Real.log 2))^(3:ℕ) := by
    rw [← Real.rpow_natCast ((2:ℝ) ^ (-Real.log 2)) 3, ← Real.rpow_mul (by norm_num),
      log_eight_eq]
    congr 1
    push_cast
    ring
  rw [hq2, hq3, show ((-1:ℝ) * 0) = (0:ℝ) by ring, Real.rpow_zero,
    show ((-1:ℝ) * Real.log 2) = -Real.log 2 by ring, one_mul]

theorem log_two_lt_one : Real.log 2 < 1 := by
  have h := Real.log_lt_sub_one_of_pos two_pos (by norm_num)
  linarith

theorem scale_two_ne_four : (2:ℝ) ^ (-Real.log 2) * 8 ≠ 4 := by
  intro h
  have hl2pos : 0 < Real.log 2 := Real.log_pos one_lt_two
  have hl2lt : Real.log 2 < 1 := log_two_lt_one
  have hrw : (2:ℝ) ^ (-Real.log 2) = Real.exp (-(Real.log 2 * Real.log 2)) := by
    rw [Real.rpow_def_of_pos two_pos]
    ring_nf
  rw [hrw] at h
  have h1 : Real.exp (-(Real.log 2 * Real.log 2)) = Real.exp (-Real.log 2) := by
    have h2 : Real.exp (-(Real.log 2 * Real.log 2)) = 1/2 := by linarith
    have h3 : Real.exp (-Real.log 2) = 1/2 := by
      rw [Real.exp_neg, Real.exp_log two_pos]
      norm_num
    rw [h2, h3]
  have heq := Real.exp_injective h1
  nlinarith

theorem scale_eight_ne_one : ((2:ℝ) ^ (-Real.log 2))^3 * 8 ≠ 1 := by
  intro h
  have hl2pos : 0 < Real.log 2 := Real.log_pos one_lt_two
  have hl2lt : Real.log 2 < 1 := log_two_lt_one
  have hrw : ((2:ℝ) ^ (-Real.log 2))^(3:ℕ) = Real.exp (-(3 * (Real.log 2 * Real.log 2))) := by
    rw [← Real.rpow_natCast ((2:ℝ) ^ (-Real.log 2)) 3, ← Real.rpow_mul (by norm_num),
      Real.rpow_def_of_pos two_pos]
    congr 1
    push_cast
    ring
  rw [hrw] at h
  have h1 : Real.exp (-(3 * (Real.log 2 * Real.log 2))) = Real.exp (-(3 * Real.log 2)) := by
    have h2 : Real.exp (-(3 * (Real.log 2 * Real.log 2))) = 1/8 := by linarith
    have h3 : Real.exp (-(3 * Real.log 2)) = 1/8 := by
      rw [← log_eight_eq, Real.exp_neg, Real.exp_log (by norm_num : (0:ℝ) < 8)]
      norm_num
    rw [h2, h3]
  have heq := Real.exp_injective h1
  nlinarith

theorem search_space_single (mi ma : ℝ) : search_space mi ma 1 = [0] := by
  unfold search_space linspace
  rw [if_pos rfl]

theorem trial_scales_single (mi ma : ℝ) : trial_scales mi ma 1 = [ma] := by
  unfold trial_scales
  rw [search_space_single]
  simp only [List.map]
  rw [show ((-1:ℝ) * 0) = (0:ℝ) by ring, Real.rpow_zero, one_mul]

/- ------------------------------------------------------------------ -/
/- Claim theorems.                                                     -/
/- ------------------------------------------------------------------ -/

/-- C1: the claim states that for a winning state with a non-None scale,
gld_update performs the same parameter mutation as perturb_parameters
with the winning seed and winning scale.  The code contradicts this: at
such a state (here seed 7, scale 2, one trainable parameter) gld_update
raises TypeError from the invalid keyword argument type= passed to
torch.normal at line 595, mutating nothing, while perturb_parameters at
the same seed and scale succeeds (for every pseudorandom stream). -/
theorem C1_gld_update_typeerror :
    gld_update ⟨1, [], [⟨"w", [1, 2], true⟩], some 7, some 2, 0, 0, []⟩ =
      Except.error PyErr.typeError ∧
    ∀ g : PRNG, ∃ st1,
      perturb_parameters g ⟨1, [], [⟨"w", [1, 2], true⟩], some 7, some 2, 0, 0, []⟩ 2 (some 7) =
        Except.ok st1 :=
  ⟨rfl, fun _ => ⟨_, rfl⟩⟩

/-- C3: for every parameter state, seed s and scale k, calling
perturb_parameters with (scale k, seed s) and then with (scale -k,
seed s) restores every parameter to its original value exactly, because
both calls reseed the stream to s and hence draw identical normal
vectors in identical order (the theorem quantifies over every stream g). -/
theorem C3_perturb_roundtrip (g : PRNG) (st : TrainerState) (k : ℚ) (s : ℕ) :
    ∃ st1 st2,
      perturb_parameters g st k (some s) = Except.ok st1 ∧
      perturb_parameters g st1 (-k) (some s) = Except.ok st2 ∧
      st2.named_parameters = st.named_parameters :=
  ⟨_, _, rfl, rfl, perturbData_roundtrip g s k st.named_parameters 0⟩

/-- C4: every invocation of gld_step (baseline evaluation plus all
do_trial calls) leaves the model parameters exactly equal to their
pre-step values: each trial perturbation is undone by the matching
inverse perturbation, the baseline evaluation mutates nothing, and no
permanent mutation occurs before gld_update runs. -/
theorem C4_step_restores_params (g : PRNG) (npr : ℕ → ℕ)
    (lf : List NamedParam → FVal) (p2 : ℚ → ℚ) (st : TrainerState) :
    (gld_step g npr lf p2 st).1.named_parameters = st.named_parameters := by
  obtain ⟨_, _, _, _, _, hp, _, _, _, _, _⟩ := gld_step_spec g npr lf p2 st
  exact hp

/-- C5: whenever the baseline trial wins a step (winning scale is None),
the subsequent gld_update succeeds, leaves every model parameter
unchanged, and advances the learning-rate schedule by exactly one step. -/
theorem C5_baseline_win_commit (g : PRNG) (npr : ℕ → ℕ) (lf : List NamedParam → FVal)
    (p2 : ℚ → ℚ) (st : TrainerState)
    (hwin : (gld_step g npr lf p2 st).1.best_scale = none) :
    ∃ st2,
      gld_update (gld_step g npr lf p2 st).1 = Except.ok st2 ∧
      st2.named_parameters = st.named_parameters ∧
      st2.lr_steps = st.lr_steps + 1 := by
  obtain ⟨trials, w, hw, hlosses, hscales, hparams, hlr, hret, hbs, hseed, hrange⟩ :=
    gld_step_spec g npr lf p2 st
  refine ⟨_, gld_update_none_scale _ w.seed hseed hwin, hparams, ?_⟩
  show (gld_step g npr lf p2 st).1.lr_steps + 1 = st.lr_steps + 1
  rw [hlr]

/-- Witness for C5: a concrete run in which the baseline wins because
the search space is empty, so the baseline is the only trial. -/
theorem C5_baseline_win_commit_witness :
    (gld_step (fun _ _ => 0) (fun _ => 0) (fun _ => FVal.fin 0) (fun _ => 0)
        ⟨1, [], [], none, none, 3, 0, []⟩).1.best_scale = none ∧
    ∃ st2,
      gld_update (gld_step (fun _ _ => 0) (fun _ => 0) (fun _ => FVal.fin 0) (fun _ => 0)
          ⟨1, [], [], none, none, 3, 0, []⟩).1 = Except.ok st2 ∧
      st2.named_parameters = ([] : List NamedParam) ∧
      st2.lr_steps = 3 + 1 :=
  ⟨rfl, C5_baseline_win_commit _ _ _ _ _ rfl⟩

/-- C2: for every trial set evaluated in one gld_step with finite
losses, the trial set is the baseline followed by one trial per
search-space radius in order; the selected winner is the first-occurring
minimum-loss trial under strict comparison (nothing in the set is
strictly below it, and everything that precedes it is strictly above
it); gld_step returns the winning loss and records the winning seed and
scale.  Moreover, in the concrete run realizing the spec's example with
losses 0.9 (baseline), 1.2, 0.5, 0.5, the third trial (seed 2, scale 2)
wins, not the fourth. -/
theorem C2_winner_selection :
    (∀ (g : PRNG) (npr : ℕ → ℕ) (lf : List NamedParam → FVal) (p2 : ℚ → ℚ)
        (st : TrainerState), (∀ ps, isFin (lf ps) = true) →
      ∃ trials w l1 l2,
        (gld_step g npr lf p2 st).1.losses =
          ⟨lf st.named_parameters, npr st.npCounter, none⟩ :: trials ∧
        trials.map Trial.scale = st.search_space.map (fun r => some (p2 r * st.max_radius)) ∧
        (gld_step g npr lf p2 st).1.losses = l1 ++ w :: l2 ∧
        (∀ t ∈ (gld_step g npr lf p2 st).1.losses, flt t.loss w.loss = false) ∧
        (∀ t ∈ l1, flt w.loss t.loss = true) ∧
        (gld_step g npr lf p2 st).2 = w.loss ∧
        (gld_step g npr lf p2 st).1.best_scale = w.scale ∧
        (gld_step g npr lf p2 st).1.gld_seed = some w.seed) ∧
    gld_step exG exNpr exLossC2 exId exStC2 =
      ({ exStC2 with
          losses := [⟨FVal.fin (9/10), 0, none⟩, ⟨FVal.fin (12/10), 1, some 1⟩,
            ⟨FVal.fin (5/10), 2, some 2⟩, ⟨FVal.fin (5/10), 3, some 3⟩],
          gld_seed := some 2, best_scale := some 2, npCounter := 4 }, FVal.fin (5/10)) := by
  constructor
  · intro g npr lf p2 st hlf
    obtain ⟨trials, w, hw, hlosses, hscales, hparams, hlr, hret, hbs, hseed, hrange⟩ :=
      gld_step_spec g npr lf p2 st
    have hfin : ∀ t ∈ (⟨lf st.named_parameters, npr st.npCounter, none⟩ : Trial) :: trials,
        isFin t.loss = true := by
      intro t ht
      rcases List.mem_cons.mp ht with h1 | h1
      · rw [h1]; exact hlf st.named_parameters
      · obtain ⟨ps, hps⟩ := hrange t h1
        rw [hps]; exact hlf ps
    obtain ⟨l1, l2, hdec, hbefore⟩ := pyMinBy_first trials _ hfin
    refine ⟨trials, w, l1, l2, hlosses, hscales, ?_, ?_, ?_, hret, hbs, hseed⟩
    · rw [hlosses, hdec, hw]
    · intro t ht
      rw [hlosses] at ht
      rw [hw]
      exact pyMinBy_not_below trials _ t ht
    · intro t ht
      rw [hw]
      exact hbefore t ht
  · simp [gld_step, gld_trials, do_trial, perturbData, drawNormal, pyMinBy, flt, exG, exNpr,
      exId, exLossC2, exLossValC2, exStC2, List.range_succ]
    norm_num [TrainerState.mk.injEq]

/-- Witness for C2: the general selection statement applied to the
concrete run whose loss function always returns a finite value. -/
theorem C2_winner_selection_witness :
    (∀ ps, isFin (exLossC2 ps) = true) ∧
    (∃ trials w l1 l2,
      (gld_step exG exNpr exLossC2 exId exStC2).1.losses =
        ⟨exLossC2 exStC2.named_parameters, exNpr exStC2.npCounter, none⟩ :: trials ∧
      trials.map Trial.scale =
        exStC2.search_space.map (fun r => some (exId r * exStC2.max_radius)) ∧
      (gld_step exG exNpr exLossC2 exId exStC2).1.losses = l1 ++ w :: l2 ∧
      (∀ t ∈ (gld_step exG exNpr exLossC2 exId exStC2).1.losses, flt t.loss w.loss = false) ∧
      (∀ t ∈ l1, flt w.loss t.loss = true) ∧
      (gld_step exG exNpr exLossC2 exId exStC2).2 = w.loss ∧
      (gld_step exG exNpr exLossC2 exId exStC2).1.best_scale = w.scale ∧
      (gld_step exG exNpr exLossC2 exId exStC2).1.gld_seed = some w.seed) := by
  exact ⟨fun _ => rfl, C2_winner_selection.1 exG exNpr exLossC2 exId exStC2 (fun _ => rfl)⟩

/-- C9 counterexample: a trial set in which every loss is non-finite
(baseline plus infinity, one trial minus infinity) does not select the
baseline: ordinary numeric comparison makes the minus-infinity trial
win, its loss is the value gld_step returns, and best_scale is set to
the trial scale instead of the baseline None. -/
theorem C9_counterexample :
    (∀ t ∈ (gld_step exG exNpr exLossInf exId exStC9).1.losses, isFin t.loss = false) ∧
    (gld_step exG exNpr exLossInf exId exStC9).1.losses.map Trial.loss =
      [FVal.pinf, FVal.ninf] ∧
    (gld_step exG exNpr exLossInf exId exStC9).1.best_scale = some 1 ∧
    (gld_step exG exNpr exLossInf exId exStC9).2 = FVal.ninf := by
  have hrun : gld_step exG exNpr exLossInf exId exStC9 =
      ({ exStC9 with
          losses := [⟨FVal.pinf, 0, none⟩, ⟨FVal.ninf, 1, some 1⟩],
          gld_seed := some 1, best_scale := some 1, npCounter := 2 }, FVal.ninf) := by
    simp [gld_step, gld_trials, do_trial, perturbData, drawNormal, pyMinBy, flt, exG, exNpr,
      exId, exLossInf, exStC9, List.range_succ]
  rw [hrun]
  refine ⟨?_, rfl, rfl, rfl⟩
  intro t ht
  rcases List.mem_cons.mp ht with h1 | h1
  · rw [h1]; rfl
  · rcases List.mem_cons.mp h1 with h2 | h2
    · rw [h2]; rfl
    · exact absurd h2 (List.not_mem_nil t)

/-- C9 amended: winner selection applies ordinary numeric comparison
with no special case for non-finite losses.  When the loss evaluator
returns NaN for every parameter setting, so that every loss in the
trial set is NaN, every comparison is false and the baseline trial,
evaluated first, is selected: its NaN loss is returned, best_scale is
None and the recorded seed is the baseline seed.  (An all-non-finite
trial set does not in general select the baseline: see the
counterexample, where a minus-infinity trial beats a plus-infinity
baseline.) -/
theorem C9_all_nan_baseline_amended (g : PRNG) (npr : ℕ → ℕ)
    (lf : List NamedParam → FVal) (p2 : ℚ → ℚ) (st : TrainerState)
    (hnan : ∀ ps, lf ps = FVal.nan) :
    (gld_step g npr lf p2 st).2 = FVal.nan ∧
    (gld_step g npr lf p2 st).1.best_scale = none ∧
    (gld_step g npr lf p2 st).1.gld_seed = some (npr st.npCounter) := by
  obtain ⟨trials, w, hw, hlosses, hscales, hparams, hlr, hret, hbs, hseed, hrange⟩ :=
    gld_step_spec g npr lf p2 st
  have hbase : pyMinBy (⟨lf st.named_parameters, npr st.npCounter, none⟩ : Trial) trials =
      ⟨lf st.named_parameters, npr st.npCounter, none⟩ := by
    apply pyMinBy_stays
    intro t ht
    show flt t.loss (lf st.named_parameters) = false
    rw [hnan st.named_parameters]
    exact flt_nan_right t.loss
  rw [hw, hbase] at hret hbs hseed
  exact ⟨by rw [hret]; exact hnan st.named_parameters, hbs, hseed⟩

/-- Witness for C9 amended: a concrete run whose loss function is NaN
everywhere. -/
theorem C9_all_nan_baseline_amended_witness :
    (∀ ps : List NamedParam, (fun _ => FVal.nan) ps = FVal.nan) ∧
    ((gld_step exG exNpr (fun _ => FVal.nan) exId exStC9).2 = FVal.nan ∧
      (gld_step exG exNpr (fun _ => FVal.nan) exId exStC9).1.best_scale = none ∧
      (gld_step exG exNpr (fun _ => FVal.nan) exId exStC9).1.gld_seed =
        some (exNpr exStC9.npCounter)) :=
  ⟨fun _ => rfl,
    C9_all_nan_baseline_amended exG exNpr (fun _ => FVal.nan) exId exStC9 (fun _ => rfl)⟩

/-- C7 counterexample: after one gld_step (whose baseline wins), two
consecutive gld_update calls with no intervening step both succeed; the
second call raises no precondition error and advances the learning-rate
schedule a second time, contradicting the claim that it must raise. -/
theorem C7_counterexample :
    (gld_update (gld_step (fun _ _ => 0) (fun _ => 0) (fun _ => FVal.fin 0) (fun _ => 0)
        ⟨1, [], [], none, none, 0, 0, []⟩).1).bind gld_update =
      Except.ok ⟨1, [], [], some 0, none, 2, 1, [⟨FVal.fin 0, 0, none⟩]⟩ := rfl

/-- C7 amended: gld_update performs no step/commit pairing check.
Called before any gld_step has ever run (self.gld_seed never assigned)
it raises AttributeError at torch.manual_seed, not a deliberate
precondition error, and mutates nothing.  Called twice in a row after a
baseline-winning step, the second call raises nothing: it repeats the
commit, advancing the learning-rate schedule a second time, while still
mutating no parameter. -/
theorem C7_commit_pairing_amended :
    (∀ st : TrainerState, st.gld_seed = none →
      gld_update st = Except.error PyErr.attributeError) ∧
    (∀ (st : TrainerState) (s : ℕ), st.gld_seed = some s → st.best_scale = none →
      ∃ st1 st2, gld_update st = Except.ok st1 ∧ gld_update st1 = Except.ok st2 ∧
        st2.named_parameters = st.named_parameters ∧ st2.lr_steps = st.lr_steps + 2) := by
  constructor
  · exact fun st h => gld_update_no_seed st h
  · intro st s hs hb
    exact ⟨_, _, gld_update_none_scale st s hs hb, gld_update_none_scale _ s hs hb, rfl, rfl⟩

/-- Witness for C7 amended: the no-step state raises AttributeError; a
concrete committed state accepts two consecutive commits. -/
theorem C7_commit_pairing_amended_witness :
    ((⟨1, [], [], none, none, 0, 0, []⟩ : TrainerState).gld_seed = none ∧
      gld_update ⟨1, [], [], none, none, 0, 0, []⟩ = Except.error PyErr.attributeError) ∧
    ((⟨1, [], [], some 5, none, 0, 0, []⟩ : TrainerState).gld_seed = some 5 ∧
      (⟨1, [], [], some 5, none, 0, 0, []⟩ : TrainerState).best_scale = none ∧
      ∃ st1 st2, gld_update ⟨1, [], [], some 5, none, 0, 0, []⟩ = Except.ok st1 ∧
        gld_update st1 = Except.ok st2 ∧
        st2.named_parameters = ([] : List NamedParam) ∧ st2.lr_steps = 0 + 2) :=
  ⟨⟨rfl, C7_commit_pairing_amended.1 _ rfl⟩,
    ⟨rfl, rfl, C7_commit_pairing_amended.2 _ 5 rfl rfl⟩⟩

/-- C6 counterexample: construction does not fail fast on invalid
configurations: with max_radius 1 below min_radius 2 (and four samples),
and with num_ball_samples 0 (below 1), __init__ succeeds and raises
nothing. -/
theorem C6_counterexample :
    (∃ c, gld_init 2 1 4 = Except.ok c) ∧ (∃ c, gld_init 1 8 0 = Except.ok c) := by
  constructor
  · refine ⟨⟨2, 1, none, Real.log ((1:ℝ)/2), linspace 0 (Real.log ((1:ℝ)/2)) (Int.toNat 4)⟩, ?_⟩
    rw [gld_init, if_neg (by norm_num), if_neg (by norm_num), if_neg (by norm_num)]
    rfl
  · refine ⟨⟨1, 8, none, Real.log ((8:ℝ)/1), linspace 0 (Real.log ((8:ℝ)/1)) (Int.toNat 0)⟩, ?_⟩
    rw [gld_init, if_neg (by norm_num), if_neg (by norm_num), if_neg (by norm_num)]
    rfl

/-- C6 amended: __init__ performs no configuration validation of its
own; construction raises exactly when its library calls do: when
min_radius is 0 (ZeroDivisionError), when max_radius / min_radius is
non-positive (math.log domain ValueError), or when num_ball_samples is
negative (np.linspace ValueError).  Configurations with
0 < max_radius ≤ min_radius, or with num_ball_samples = 0, are accepted
silently rather than rejected. -/
theorem C6_init_error_characterization (mi ma : ℝ) (n : ℤ) :
    (∃ e, gld_init mi ma n = Except.error e) ↔ (mi = 0 ∨ ma / mi ≤ 0 ∨ n < 0) := by
  unfold gld_init
  by_cases h1 : mi = 0
  · simp [h1]
  · rw [if_neg h1]
    by_cases h2 : ma / mi ≤ 0
    · simp [h1, h2]
    · rw [if_neg h2]
      by_cases h3 : n < 0
      · simp [h1, h2, h3]
      · simp [h1, h2, h3]

/-- C8 counterexample: for min_radius 1, max_radius 8,
num_ball_samples 4, the trial scales computed by the code are not
8, 4, 2, 1: the second scale is 8 times 2 to the power minus ln 2,
which is not 4 (it would be 4 only if the exponential base were e). -/
theorem C8_counterexample : trial_scales 1 8 4 ≠ [8, 4, 2, 1] := by
  intro h
  rw [trial_scales_one_eight_four] at h
  injection h with h0 h
  injection h with h1 h
  exact scale_two_ne_four h1

/-- C8 amended: for min_radius 1, max_radius 8, num_ball_samples 4, the
search space is the four evenly spaced log-radius values 0, ln 2,
2 ln 2, ln 8 (as claimed), and the trial scales are the geometric
sequence 8 times the k-th power of 2 ^ (- ln 2) for k = 0, 1, 2, 3
(ratio 2 ^ (- ln 2), roughly 0.618, strictly between 0 and 1, so the
scales decrease strictly from max_radius 8); they are not 8, 4, 2, 1,
and the last scale differs from min_radius 1. -/
theorem C8_search_space_scales_amended :
    search_space 1 8 4 = [0, Real.log 2, 2 * Real.log 2, Real.log 8] ∧
    trial_scales 1 8 4 =
      [8, (2:ℝ) ^ (-Real.log 2) * 8, ((2:ℝ) ^ (-Real.log 2))^2 * 8,
        ((2:ℝ) ^ (-Real.log 2))^3 * 8] ∧
    (0 < (2:ℝ) ^ (-Real.log 2) ∧ (2:ℝ) ^ (-Real.log 2) < 1) ∧
    (2:ℝ) ^ (-Real.log 2) * 8 ≠ 4 ∧
    ((2:ℝ) ^ (-Real.log 2))^3 * 8 ≠ 1 :=
  ⟨search_space_one_eight_four, trial_scales_one_eight_four,
    ⟨Real.rpow_pos_of_pos two_pos _,
      Real.rpow_lt_one_of_one_lt_of_neg one_lt_two
        (neg_lt_zero.mpr (Real.log_pos one_lt_two))⟩,
    scale_two_ne_four, scale_eight_ne_one⟩

/-- C10: with num_ball_samples 1 the constructed search space is the
single log-radius value 0 for every pair of radius bounds (np.linspace
with one sample returns only the interval start), the single trial
scale is exactly max_radius, independent of min_radius; and every
gld_step over a one-element search space containing 0 evaluates exactly
one perturbed trial after the baseline, with scale equal to max_radius
(given that 2 to the power minus 0 is 1). -/
theorem C10_single_sample :
    (∀ mi ma : ℝ, search_space mi ma 1 = [0] ∧ trial_scales mi ma 1 = [ma]) ∧
    (∀ (g : PRNG) (npr : ℕ → ℕ) (lf : List NamedParam → FVal) (p2 : ℚ → ℚ)
        (st : TrainerState), st.search_space = [0] → p2 0 = 1 →
      ∃ t, (gld_step g npr lf p2 st).1.losses =
          [⟨lf st.named_parameters, npr st.npCounter, none⟩, t] ∧
        t.scale = some st.max_radius) := by
  constructor
  · exact fun mi ma => ⟨search_space_single mi ma, trial_scales_single mi ma⟩
  · intro g npr lf p2 st hss hp2
    obtain ⟨trials, w, hw, hlosses, hscales, hparams, hlr, hret, hbs, hseed, hrange⟩ :=
      gld_step_spec g npr lf p2 st
    rw [hss] at hscales
    simp only [List.map] at hscales
    rw [hp2, one_mul] at hscales
    cases trials with
    | nil => exact absurd hscales (by simp)
    | cons t ts =>
      simp only [List.map] at hscales
      injection hscales with h1 h2
      have hts : ts = [] := List.map_eq_nil_iff.mp h2
      refine ⟨t, ?_, h1⟩
      rw [hlosses, hts]

/-- Witness for C10: a concrete one-radius run with max_radius 5. -/
theorem C10_single_sample_witness :
    ((⟨5, [0], [], none, none, 0, 0, []⟩ : TrainerState).search_space = [(0:ℚ)] ∧
      (fun _ : ℚ => (1:ℚ)) 0 = 1) ∧
    (∃ t, (gld_step (fun _ _ => 0) (fun _ => 0) (fun _ => FVal.fin 0) (fun _ : ℚ => (1:ℚ))
        ⟨5, [0], [], none, none, 0, 0, []⟩).1.losses =
        [⟨FVal.fin 0, 0, none⟩, t] ∧ t.scale = some (5:ℚ)) :=
  ⟨⟨rfl, rfl⟩,
    C10_single_sample.2 (fun _ _ => 0) (fun _ => 0) (fun _ => FVal.fin 0) (fun _ => 1)
      ⟨5, [0], [], none, none, 0, 0, []⟩ rfl rfl⟩

end GLDTrainer
